import Mathlib

set_option maxHeartbeats 1000000

/-! Shallow embedding of the bookmarkt Netscape-bookmark parser:
the code of src/netscape.rs and src/folder.rs together with the
collaborators those files use (the tree-adapter helpers, the Item sum
type and the leaf-entry builder, which are modelled from the spec where
their sources are not available). -/

/-- A parsed markup (DOM) tree node, as kuchiki hands it to the parser:
an element with a tag name, an ordered attribute list (name, value; a
presence-only attribute carries the empty value) and ordered children, or
a text node.  Tag and attribute comparisons are case-insensitive
throughout, matching the adapter contract. -/
inductive DomNode where
  | element : String → List (String × String) → List DomNode → DomNode
  | text : String → DomNode

/-- Case-insensitive name comparison used for tags and attribute names
(compared over the lowercased character sequences). -/
def nameEq (a b : String) : Bool :=
  a.data.map Char.toLower == b.data.map Char.toLower

/-- Modelled from the spec: node_ref_ext::is_element (the adapter's
has_tag) — case-insensitive tag match, false on non-elements. -/
def DomNode.is_element (n : DomNode) (tag : String) : Bool :=
  match n with
  | .element t _ _ => nameEq t tag
  | .text _ => false

/-- Modelled from the spec: node_ref_ext::select_attribute (the adapter's
attribute lookup) — case-insensitive lookup of the node's own attribute;
a presence-only attribute is present with the empty value. -/
def DomNode.select_attribute (n : DomNode) (name : String) : Option String :=
  match n with
  | .element _ attrs _ => (attrs.find? (fun p => nameEq p.1 name)).map Prod.snd
  | .text _ => none

/-- The direct children of a node (kuchiki children()). -/
def DomNode.children : DomNode → List DomNode
  | .element _ _ cs => cs
  | .text _ => []

mutual
/-- Modelled from the spec: kuchiki text_contents (the adapter's
text_content) — concatenation of all descendant text, in order. -/
def DomNode.text_contents : DomNode → String
  | .element _ _ cs => textOfList cs
  | .text s => s

def textOfList : List DomNode → String
  | [] => ""
  | c :: rest => c.text_contents ++ textOfList rest
end

mutual
/-- All strict descendants of a node, in document (pre-)order. -/
def DomNode.descendants : DomNode → List DomNode
  | .element _ _ cs => descList cs
  | .text _ => []

def descList : List DomNode → List DomNode
  | [] => []
  | c :: rest => c :: (c.descendants ++ descList rest)
end

/-- Modelled from the spec: the Leaf-Entry record built by bookmark.rs —
href, title and three string-encoded optional timestamps. -/
structure Bookmark where
  href : String
  title : String
  add_date : String
  last_visit : String
  last_modified : String
deriving DecidableEq

/-- Modelled from the spec: Bookmark::from_node (the Leaf-Entry Builder) —
HREF / ADD_DATE / LAST_VISIT / LAST_MODIFIED attributes default to the
empty string when absent, the title is the node's text content; it never
fails. -/
def Bookmark.from_node (n : DomNode) : Bookmark where
  href := (n.select_attribute "HREF").getD ""
  title := n.text_contents
  add_date := (n.select_attribute "ADD_DATE").getD ""
  last_visit := (n.select_attribute "LAST_VISIT").getD ""
  last_modified := (n.select_attribute "LAST_MODIFIED").getD ""

mutual
/-- The Folder record of src/folder.rs, fields in source order:
title, folded, add_date, last_modified, personal_toolbar_folder,
unfiled_bookmarks_folder, children. -/
inductive Folder where
  | mk : String → Bool → String → String → Bool → Bool → List Item → Folder

/-- Modelled from the spec: the Item sum type of item.rs — the variants
that survive construction are a nested folder and a leaf shortcut
(unknown nodes are dropped rather than represented). -/
inductive Item where
  | Subfolder : Folder → Item
  | Shortcut : Bookmark → Item
end

def Folder.title : Folder → String
  | .mk t _ _ _ _ _ _ => t

def Folder.folded : Folder → Bool
  | .mk _ f _ _ _ _ _ => f

def Folder.add_date : Folder → String
  | .mk _ _ a _ _ _ _ => a

def Folder.last_modified : Folder → String
  | .mk _ _ _ l _ _ _ => l

def Folder.personal_toolbar_folder : Folder → Bool
  | .mk _ _ _ _ p _ _ => p

def Folder.unfiled_bookmarks_folder : Folder → Bool
  | .mk _ _ _ _ _ u _ => u

def Folder.children : Folder → List Item
  | .mk _ _ _ _ _ _ c => c

def Folder.withFolded (b : Bool) : Folder → Folder
  | .mk t _ a l p u c => .mk t b a l p u c

def Folder.withLastModified (s : String) : Folder → Folder
  | .mk t f a _ p u c => .mk t f a s p u c

def Folder.withPersonalToolbarFolder (b : Bool) : Folder → Folder
  | .mk t f a l _ u c => .mk t f a l b u c

def Folder.withUnfiledBookmarksFolder (b : Bool) : Folder → Folder
  | .mk t f a l p _ c => .mk t f a l p b c

/-- The derive_builder-generated FolderBuilder of src/folder.rs: one
optional slot per field, none set by default. -/
structure FolderBuilder where
  title : Option String := none
  folded : Option Bool := none
  add_date : Option String := none
  last_modified : Option String := none
  personal_toolbar_folder : Option Bool := none
  unfiled_bookmarks_folder : Option Bool := none
  children : Option (List Item) := none

/-- FolderBuilder::build as derive_builder generates it for this struct:
every field carries a default (empty string, false, or the empty list),
so each slot falls back to its default and the result is always Ok. -/
def FolderBuilder.build (b : FolderBuilder) : Except String Folder :=
  .ok (Folder.mk (b.title.getD "") (b.folded.getD false) (b.add_date.getD "")
    (b.last_modified.getD "") (b.personal_toolbar_folder.getD false)
    (b.unfiled_bookmarks_folder.getD false) (b.children.getD []))

/-- The search `node.children().find(|n| n.is_element("H3"))` of
Folder::from_node, returning the found header together with its
following siblings inside the wrapper. -/
def findH3 : List DomNode → Option (DomNode × List DomNode)
  | [] => none
  | c :: rest => if c.is_element "H3" then some (c, rest) else findH3 rest

theorem findH3_sizeOf {cs : List DomNode} {h3 : DomNode} {rest : List DomNode}
    (h : findH3 cs = some (h3, rest)) : sizeOf h3 + sizeOf rest < sizeOf cs := by
  induction cs with
  | nil => simp [findH3] at h
  | cons c cr ih =>
    by_cases hc : c.is_element "H3" = true
    · simp [findH3, hc] at h
      obtain ⟨h1, h2⟩ := h
      subst h1; subst h2
      simp only [List.cons.sizeOf_spec]
      omega
    · simp [findH3, hc] at h
      have := ih h
      simp only [List.cons.sizeOf_spec]
      omega

/-- Modelled from the spec: the Item Variant Resolver's anchor step —
the node itself when it is an anchor element, otherwise its first anchor
child (the wrapper form). -/
def findAnchor (n : DomNode) : Option DomNode :=
  if n.is_element "A" then some n
  else match n with
    | .element _ _ cs => cs.find? (fun c => c.is_element "A")
    | .text _ => none

mutual
/-- Folder::from_node of src/folder.rs: on an item-wrapper (DT) it
recurses into the first folder-header (H3) child with that child's
following siblings; on a folder header (H3) it fills a FolderBuilder
from the header's attributes and text, scans every following sibling and,
for each list container (DL) among them, recomputes the children from
that container's children (each DL overwrites the previous value, as the
source loop does), then builds; on anything else it yields none. -/
def Folder.from_node (node : DomNode) (following : List DomNode) : Option Folder :=
  match node with
  | .element tag attrs cs =>
    if nameEq tag "DT" then
      match hf : findH3 cs with
      | some (h3, rest) => Folder.from_node h3 rest
      | none => none
    else if nameEq tag "H3" then
      let n := DomNode.element tag attrs cs
      let b : FolderBuilder := {}
      let b := if (n.select_attribute "FOLDED").isSome then
                 { b with folded := some true } else b
      let b := match n.select_attribute "ADD_DATE" with
               | some v => { b with add_date := some v } | none => b
      let b := match n.select_attribute "LAST_MODIFIED" with
               | some v => { b with last_modified := some v } | none => b
      let b := if (n.select_attribute "PERSONAL_TOOLBAR_FOLDER").isSome then
                 { b with personal_toolbar_folder := some true } else b
      let b := if (n.select_attribute "UNFILED_BOOKMARKS_FOLDER").isSome then
                 { b with unfiled_bookmarks_folder := some true } else b
      let b := { b with title := some n.text_contents }
      let b := match siblingsChildren following none with
               | some ch => { b with children := some ch } | none => b
      match b.build with
      | .ok built => some built
      | .error _ => none
    else none
  | .text _ => none
termination_by 4 * (sizeOf node + sizeOf following)
decreasing_by
  · have := findH3_sizeOf hf
    simp only [DomNode.element.sizeOf_spec]
    omega
  · simp only [DomNode.element.sizeOf_spec]
    omega

/-- The sibling loop of Folder::from_node: walks the following siblings
in order and, at each list container (DL), replaces the accumulated
children with the items collected from that container's children. -/
def siblingsChildren (sibs : List DomNode) (acc : Option (List Item)) :
    Option (List Item) :=
  match sibs with
  | [] => acc
  | sib :: rest =>
    match sib with
    | .element t a cs =>
      if nameEq t "DL" then
        siblingsChildren rest (some (collectItems cs))
      else
        siblingsChildren rest acc
    | .text _ => siblingsChildren rest acc
termination_by 4 * sizeOf sibs + 2
decreasing_by
  all_goals simp only [List.cons.sizeOf_spec, DomNode.element.sizeOf_spec,
    DomNode.text.sizeOf_spec]
  all_goals omega

/-- The child loop inside a list container: each direct child is fed to
the Item Variant Resolver together with its own following siblings, and
the non-absent results are collected in order. -/
def collectItems (nodes : List DomNode) : List Item :=
  match nodes with
  | [] => []
  | c :: rest =>
    match Item.from_node c rest with
    | some it => it :: collectItems rest
    | none => collectItems rest
termination_by 4 * sizeOf nodes + 3
decreasing_by
  all_goals simp only [List.cons.sizeOf_spec]
  all_goals omega

/-- Modelled from the spec: Item::from_node, the Item Variant Resolver —
first try the Folder Builder (which itself accepts both the wrapper and
the bare header form); otherwise, when the node is or wraps an anchor,
build a leaf shortcut; otherwise no item. -/
def Item.from_node (node : DomNode) (following : List DomNode) : Option Item :=
  match Folder.from_node node following with
  | some f => some (Item.Subfolder f)
  | none =>
    match findAnchor node with
    | some a => some (Item.Shortcut (Bookmark.from_node a))
    | none => none
termination_by 4 * (sizeOf node + sizeOf following) + 1
decreasing_by
  · omega
end

mutual
/-- The matcher behind kuchiki's select("DL > DT"): an element matches
when its tag is DT and its parent element's tag is DL; the flag records
whether the parent is a list container.  Matches are produced in document
(pre-)order. -/
def collectDLDT (parentIsDL : Bool) : DomNode → List DomNode
  | .element t a cs =>
    (if parentIsDL && nameEq t "DT" then [DomNode.element t a cs] else []) ++
      collectDLDTList (nameEq t "DL") cs
  | .text _ => []

def collectDLDTList (parentIsDL : Bool) : List DomNode → List DomNode
  | [] => []
  | c :: rest => collectDLDT parentIsDL c ++ collectDLDTList parentIsDL rest
end

/-- The selection `node.select("DL > DT")` of Netscape::from_node: every strict
descendant of the node that is an item-wrapper (DT) whose parent is a
list container (DL), in document order. -/
def DomNode.select_dl_dt (n : DomNode) : List DomNode :=
  match n with
  | .element t _ cs => collectDLDTList (nameEq t "DL") cs
  | .text _ => []

/-- Modelled from the spec: node_ref_ext::select_text — the text content
of the first strict descendant with the given tag, if any. -/
def DomNode.select_text (n : DomNode) (tag : String) : Option String :=
  (n.descendants.find? (fun d => d.is_element tag)).map DomNode.text_contents

/-- A file read / UTF-8 decode failure (std::io::Error), the only error
the entry points can surface. -/
structure IOErr where
  msg : String
deriving DecidableEq

/-- The Netscape document record of src/netscape.rs. -/
structure Netscape where
  title : String
  h1 : String
  children : List Item

/-- Netscape::from_node of src/netscape.rs: title and h1 default to the
empty string and are otherwise the text of the first TITLE / H1
descendant; the children are the resolver results over every DT that is
a direct child of a DL, in document order (a DT's own following siblings
play no role in resolving it, so the resolver is given none). -/
def Netscape.from_node (node : DomNode) : Except IOErr Netscape :=
  let title := (node.select_text "TITLE").getD ""
  let h1 := (node.select_text "H1").getD ""
  let children := node.select_dl_dt.filterMap (fun dt => Item.from_node dt [])
  .ok { title := title, h1 := h1, children := children }

/-- Netscape::from_string: the external, infallible HTML parser
(kuchiki's parse_html().one) is passed in as a function, and its result
is handed to from_node. -/
def Netscape.from_string (parseHtml : String → DomNode) (raw : String) :
    Except IOErr Netscape :=
  Netscape.from_node (parseHtml raw)

/-- Netscape::from_file: the external read / decode / parse step either
fails with an I/O error or yields the parsed root, which is handed to
from_node (the Rust and_then). -/
def Netscape.from_file (readAndParse : Except IOErr DomNode) :
    Except IOErr Netscape :=
  readAndParse.bind Netscape.from_node

/-- Netscape::to_string of src/netscape.rs: it returns String::new(). -/
def Netscape.to_string (_n : Netscape) : String := ""

/-- Modelled from the spec: Bookmark's equality compares every field of
the leaf entry. -/
def bookmarkEq (a b : Bookmark) : Bool :=
  a.href == b.href && a.title == b.title && a.add_date == b.add_date &&
    a.last_visit == b.last_visit && a.last_modified == b.last_modified

mutual
/-- The PartialEq impl of src/folder.rs: add_date, title and the
children sequence, nothing else. -/
def folderEq (f g : Folder) : Bool :=
  f.add_date == g.add_date && f.title == g.title &&
    itemListEq f.children g.children
termination_by 4 * sizeOf f
decreasing_by
  · cases f
    simp only [Folder.children, Folder.mk.sizeOf_spec]
    omega

/-- Modelled from the spec: Item equality — same variant with equal
payload. -/
def itemEq (x y : Item) : Bool :=
  match x, y with
  | .Subfolder f, .Subfolder g => folderEq f g
  | .Shortcut a, .Shortcut b => bookmarkEq a b
  | _, _ => false
termination_by 4 * sizeOf x + 1
decreasing_by
  · simp only [Item.Subfolder.sizeOf_spec]
    omega

/-- Vec equality: same length and pairwise equal items. -/
def itemListEq (xs ys : List Item) : Bool :=
  match xs, ys with
  | [], [] => true
  | x :: xr, y :: yr => itemEq x y && itemListEq xr yr
  | _, _ => false
termination_by 4 * sizeOf xs + 2
decreasing_by
  all_goals simp only [List.cons.sizeOf_spec]
  all_goals omega
end

/-- The PartialEq impl of src/netscape.rs: title, h1 and the children
sequence. -/
def netscapeEq (a b : Netscape) : Bool :=
  a.title == b.title && a.h1 == b.h1 && itemListEq a.children b.children

/-- Unfolding of Folder::from_node at a folder-header element: the build
always succeeds and each field comes from the header as described. -/
theorem from_node_h3_eq (tag : String) (attrs : List (String × String))
    (cs : List DomNode) (following : List DomNode) (h : nameEq tag "H3" = true) :
    Folder.from_node (.element tag attrs cs) following =
      some (Folder.mk (DomNode.element tag attrs cs).text_contents
        ((DomNode.element tag attrs cs).select_attribute "FOLDED").isSome
        (((DomNode.element tag attrs cs).select_attribute "ADD_DATE").getD "")
        (((DomNode.element tag attrs cs).select_attribute "LAST_MODIFIED").getD "")
        ((DomNode.element tag attrs cs).select_attribute "PERSONAL_TOOLBAR_FOLDER").isSome
        ((DomNode.element tag attrs cs).select_attribute "UNFILED_BOOKMARKS_FOLDER").isSome
        ((siblingsChildren following none).getD [])) := by
  have h1 : tag.data.map Char.toLower = "H3".data.map Char.toLower := by
    simpa [nameEq] using h
  have h2 : nameEq tag "DT" = false := by
    simp only [nameEq, h1]
    decide
  rw [Folder.from_node]
  simp only [h2, Bool.false_eq_true, if_false, h, if_true]
  cases hF : (DomNode.element tag attrs cs).select_attribute "FOLDED" <;>
  cases hA : (DomNode.element tag attrs cs).select_attribute "ADD_DATE" <;>
  cases hL : (DomNode.element tag attrs cs).select_attribute "LAST_MODIFIED" <;>
  cases hP : (DomNode.element tag attrs cs).select_attribute "PERSONAL_TOOLBAR_FOLDER" <;>
  cases hU : (DomNode.element tag attrs cs).select_attribute "UNFILED_BOOKMARKS_FOLDER" <;>
  cases hS : siblingsChildren following none <;>
  simp [FolderBuilder.build, hF, hA, hL, hP, hU, hS]

theorem getLast?_cons_eq {α : Type} (a : α) (l : List α) :
    (a :: l).getLast? = some (l.getLast?.getD a) := by
  induction l generalizing a with
  | nil => simp
  | cons b r ih => rw [List.getLast?_cons_cons, ih b]; simp

theorem find?_eq_filter_head {α : Type} (p : α → Bool) (l : List α) :
    l.find? p = (l.filter p).head? := by
  induction l with
  | nil => simp
  | cons a r ih =>
    rw [List.find?_cons, List.filter_cons]
    cases hpa : p a with
    | true => simp
    | false => simpa using ih

/-- The last list-container element of a sibling list, if any (scanning
from the right). -/
def lastDL : List DomNode → Option DomNode
  | [] => none
  | s :: rest =>
    match lastDL rest with
    | some dl => some dl
    | none => if s.is_element "DL" then some s else none

theorem lastDL_eq_filter (l : List DomNode) :
    lastDL l = (l.filter (fun s => s.is_element "DL")).getLast? := by
  induction l with
  | nil => rfl
  | cons s rest ih =>
    rw [lastDL, List.filter_cons]
    by_cases h : s.is_element "DL" = true
    · rw [if_pos h, if_pos h, getLast?_cons_eq, ← ih]
      cases hl : lastDL rest with
      | none => simp
      | some dl => simp
    · rw [if_neg h, if_neg h, ← ih]
      cases hl : lastDL rest with
      | none => simp
      | some dl => simp

/-- The sibling loop keeps only the children computed at the last list
container among the following siblings. -/
theorem siblingsChildren_eq (sibs : List DomNode) (acc : Option (List Item)) :
    siblingsChildren sibs acc =
      match lastDL sibs with
      | some dl => some (collectItems dl.children)
      | none => acc := by
  induction sibs generalizing acc with
  | nil => rw [siblingsChildren, lastDL]
  | cons sib rest ih =>
    cases sib with
    | text s =>
      rw [siblingsChildren, lastDL, ih acc]
      have ht : (DomNode.text s).is_element "DL" = false := rfl
      rw [ht]
      cases hl : lastDL rest with
      | none => simp
      | some dl => simp
    | element t a cs =>
      by_cases hdl : nameEq t "DL" = true
      · have he : (DomNode.element t a cs).is_element "DL" = true := hdl
        rw [siblingsChildren, lastDL]
        simp only [hdl, if_true, he]
        rw [ih]
        cases hl : lastDL rest with
        | none => simp [DomNode.children]
        | some dl => simp
      · have he : (DomNode.element t a cs).is_element "DL" = false := by
          simpa [DomNode.is_element] using hdl
        rw [siblingsChildren, lastDL]
        simp only [hdl, if_false, he, Bool.false_eq_true]
        rw [ih]
        cases hl : lastDL rest with
        | none => simp
        | some dl => simp

mutual
/-- The (parent, child) pairs of a tree, ordered by document order of the
child: each child follows its parent pair, then come its own pairs. -/
def elemPairs : DomNode → List (DomNode × DomNode)
  | .element t a cs => pairsList (.element t a cs) cs
  | .text _ => []
termination_by n => 2 * sizeOf n

def pairsList (p : DomNode) : List DomNode → List (DomNode × DomNode)
  | [] => []
  | c :: rest => (p, c) :: (elemPairs c ++ pairsList p rest)
termination_by cs => 2 * sizeOf cs + 1
decreasing_by
  all_goals simp only [List.cons.sizeOf_spec]
  all_goals omega
end

/-- A pair matching the selector DL > DT: the parent is a list container
and the child an item wrapper. -/
def isDLDTpair (pc : DomNode × DomNode) : Bool :=
  pc.1.is_element "DL" && pc.2.is_element "DT"

mutual
theorem elemPairs_select (n : DomNode) :
    ((elemPairs n).filter isDLDTpair).map Prod.snd = n.select_dl_dt := by
  cases n with
  | text s => rw [elemPairs]; rfl
  | element t a cs =>
    rw [elemPairs, DomNode.select_dl_dt,
      pairsList_select (DomNode.element t a cs) cs]
    rfl
termination_by 2 * sizeOf n

theorem pairsList_select (p : DomNode) (cs : List DomNode) :
    ((pairsList p cs).filter isDLDTpair).map Prod.snd =
      collectDLDTList (p.is_element "DL") cs := by
  cases cs with
  | nil => rw [pairsList, collectDLDTList]; rfl
  | cons c rest =>
    rw [pairsList, collectDLDTList, List.filter_cons, List.filter_append]
    cases c with
    | text s =>
      have h1 : isDLDTpair (p, DomNode.text s) = false := by
        simp [isDLDTpair, DomNode.is_element]
      rw [h1, collectDLDT, elemPairs]
      simp only [Bool.false_eq_true, if_false, List.filter_nil, List.nil_append,
        List.map_append]
      rw [pairsList_select p rest]
    | element tc ac csc =>
      have h1 : isDLDTpair (p, DomNode.element tc ac csc) =
          (p.is_element "DL" && nameEq tc "DT") := by
        simp [isDLDTpair, DomNode.is_element]
      rw [h1, collectDLDT]
      have h2 := elemPairs_select (DomNode.element tc ac csc)
      rw [DomNode.select_dl_dt] at h2
      cases hb : (p.is_element "DL" && nameEq tc "DT") with
      | true =>
        simp only [if_true, List.map_cons, List.map_append]
        rw [h2, pairsList_select p rest]
        rfl
      | false =>
        simp only [Bool.false_eq_true, if_false, List.map_append]
        rw [h2, pairsList_select p rest]
        rfl
termination_by 2 * sizeOf cs + 1
decreasing_by
  all_goals simp only [List.cons.sizeOf_spec]
  all_goals omega
end

/-- Unfolding of Folder::from_node at an item-wrapper whose first header
child was found: it defers to the header with the header's following
siblings. -/
theorem from_node_dt_some (tag : String) (attrs : List (String × String))
    (cs following : List DomNode) (h3 : DomNode) (rest : List DomNode)
    (h : nameEq tag "DT" = true) (hf : findH3 cs = some (h3, rest)) :
    Folder.from_node (.element tag attrs cs) following =
      Folder.from_node h3 rest := by
  rw [Folder.from_node, if_pos h]
  split
  · rename_i h3' rest' hf'
    rw [hf] at hf'
    cases hf'
    rfl
  · rename_i hf'
    rw [hf] at hf'
    cases hf'

/-- Unfolding of Folder::from_node at an item-wrapper with no header
child: no folder. -/
theorem from_node_dt_none (tag : String) (attrs : List (String × String))
    (cs following : List DomNode)
    (h : nameEq tag "DT" = true) (hf : findH3 cs = none) :
    Folder.from_node (.element tag attrs cs) following = none := by
  rw [Folder.from_node, if_pos h]
  split
  · rename_i h3' rest' hf'
    rw [hf] at hf'
    cases hf'
  · rfl

/-- Folder::from_node yields nothing on an element that is neither an
item wrapper nor a folder header. -/
theorem from_node_other (tag : String) (attrs : List (String × String))
    (cs following : List DomNode)
    (h1 : nameEq tag "DT" = false) (h2 : nameEq tag "H3" = false) :
    Folder.from_node (.element tag attrs cs) following = none := by
  rw [Folder.from_node]
  simp [h1, h2]

/-- Folder::from_node yields nothing on a text node. -/
theorem from_node_text (s : String) (following : List DomNode) :
    Folder.from_node (.text s) following = none := by
  rw [Folder.from_node]

/-- Unfolding of Folder::from_node at an item-wrapper: whatever the
header search yields decides the outcome. -/
theorem from_node_dt (tag : String) (attrs : List (String × String))
    (cs following : List DomNode) (h : nameEq tag "DT" = true) :
    Folder.from_node (.element tag attrs cs) following =
      match findH3 cs with
      | some pr => Folder.from_node pr.1 pr.2
      | none => none := by
  cases hf : findH3 cs with
  | some pr =>
    cases pr with
    | mk h3 rest => exact from_node_dt_some tag attrs cs following h3 rest h hf
  | none => exact from_node_dt_none tag attrs cs following h hf

theorem collectItems_nil : collectItems [] = [] := by
  rw [collectItems]

theorem find?_isSome_any {α : Type} (p : α → Bool) (l : List α) :
    (l.find? p).isSome = l.any p := by
  cases hf : l.find? p with
  | none =>
    have h := List.find?_eq_none.mp hf
    have ha : l.any p = false := by
      rw [List.any_eq_false]
      intro x hx
      simpa using h x hx
    rw [ha]
    rfl
  | some a =>
    have h1 := List.find?_some hf
    have h2 := List.mem_of_find?_eq_some hf
    have ha : l.any p = true := List.any_eq_true.mpr ⟨a, h2, h1⟩
    rw [ha]
    rfl

theorem netscapeEq_title {a b : Netscape} (h : netscapeEq a b = true) :
    a.title = b.title := by
  rw [netscapeEq] at h
  simp only [Bool.and_eq_true, beq_iff_eq] at h
  exact h.1.1

/-- C10: for every Document value, the markup-rendering operation on the
Document type (Netscape::to_string) returns the empty string, regardless
of the document's title, heading, or children. -/
theorem c10_to_string_empty : ∀ N : Netscape, N.to_string = "" := fun _ => rfl

/-- C4: for every input string the build-from-text entry point returns a
successfully built Document; an error can be returned only by the
build-from-file entry point, and only when the file read/decode step
itself failed. -/
theorem c4_parse_never_fails :
    (∀ parseHtml : String → DomNode, ∀ raw : String,
      ∃ N, Netscape.from_string parseHtml raw = .ok N) ∧
    (∀ e : IOErr, Netscape.from_file (.error e) = .error e) ∧
    (∀ node : DomNode, ∃ N, Netscape.from_file (.ok node) = .ok N) :=
  ⟨fun _ _ => ⟨_, rfl⟩, fun _ => rfl, fun _ => ⟨_, rfl⟩⟩

/-- C8: FolderBuilder::build always succeeds — its error branch is
unreachable — and consequently every folder-header element yields a
folder. -/
theorem c8_build_always_succeeds :
    (∀ b : FolderBuilder, ∃ f, b.build = Except.ok f) ∧
    (∀ (tag : String) (attrs : List (String × String))
      (cs following : List DomNode), nameEq tag "H3" = true →
      ∃ f, Folder.from_node (.element tag attrs cs) following = some f) := by
  constructor
  · intro b
    exact ⟨_, rfl⟩
  · intro tag attrs cs following h
    exact ⟨_, from_node_h3_eq tag attrs cs following h⟩

theorem c8_witness :
    (∃ f, FolderBuilder.build {} = Except.ok f) ∧
    (∃ f, Folder.from_node (.element "H3" [] []) [] = some f) :=
  ⟨c8_build_always_succeeds.1 {},
    c8_build_always_succeeds.2 "H3" [] [] [] (by decide)⟩

/-- C7: Folder equality is exactly equality of title, add_date and the
recursively compared children; the folded flag, the two toolbar flags
and last_modified never affect it.  Document equality is exactly
equality of the identifying textual fields (title, h1) and the children
sequence. -/
theorem c7_equality_semantics :
    (∀ f g : Folder, ∀ b : Bool,
      folderEq (f.withFolded b) g = folderEq f g ∧
      folderEq f (g.withFolded b) = folderEq f g ∧
      folderEq (f.withPersonalToolbarFolder b) g = folderEq f g ∧
      folderEq f (g.withPersonalToolbarFolder b) = folderEq f g ∧
      folderEq (f.withUnfiledBookmarksFolder b) g = folderEq f g ∧
      folderEq f (g.withUnfiledBookmarksFolder b) = folderEq f g) ∧
    (∀ f g : Folder, ∀ s : String,
      folderEq (f.withLastModified s) g = folderEq f g ∧
      folderEq f (g.withLastModified s) = folderEq f g) ∧
    (∀ f g : Folder, folderEq f g = true ↔
      f.title = g.title ∧ f.add_date = g.add_date ∧
      itemListEq f.children g.children = true) ∧
    (∀ f g : Folder, itemEq (.Subfolder f) (.Subfolder g) = folderEq f g) ∧
    (∀ a b : Netscape, netscapeEq a b = true ↔
      a.title = b.title ∧ a.h1 = b.h1 ∧ itemListEq a.children b.children = true) := by
  refine ⟨?_, ?_, ?_, ?_, ?_⟩
  · intro f g b
    cases f with | mk t fo ad lm pt uf ch =>
    cases g with | mk t2 fo2 ad2 lm2 pt2 uf2 ch2 =>
    refine ⟨?_, ?_, ?_, ?_, ?_, ?_⟩ <;> rw [folderEq, folderEq] <;> all_goals rfl
  · intro f g s
    cases f with | mk t fo ad lm pt uf ch =>
    cases g with | mk t2 fo2 ad2 lm2 pt2 uf2 ch2 =>
    refine ⟨?_, ?_⟩ <;> rw [folderEq, folderEq] <;> all_goals rfl
  · intro f g
    rw [folderEq]
    simp only [Bool.and_eq_true, beq_iff_eq]
    constructor
    · rintro ⟨⟨h1, h2⟩, h3⟩
      exact ⟨h2, h1, h3⟩
    · rintro ⟨h2, h1, h3⟩
      exact ⟨⟨h1, h2⟩, h3⟩
  · intro f g
    rw [itemEq]
  · intro a b
    rw [netscapeEq]
    simp only [Bool.and_eq_true, beq_iff_eq, and_assoc]

/-- C5: on a folder-header element each boolean hint attribute (FOLDED,
PERSONAL_TOOLBAR_FOLDER, UNFILED_BOOKMARKS_FOLDER) parses to true
exactly when an attribute of that name is present — whatever its value,
including the empty one — and to false when absent; ADD_DATE and
LAST_MODIFIED are stored verbatim when present and default to the empty
string when absent. -/
theorem c5_attribute_parsing (tag : String) (attrs : List (String × String))
    (cs following : List DomNode) (h : nameEq tag "H3" = true) :
    ∃ f, Folder.from_node (.element tag attrs cs) following = some f ∧
      f.folded = attrs.any (fun p => nameEq p.1 "FOLDED") ∧
      f.personal_toolbar_folder =
        attrs.any (fun p => nameEq p.1 "PERSONAL_TOOLBAR_FOLDER") ∧
      f.unfiled_bookmarks_folder =
        attrs.any (fun p => nameEq p.1 "UNFILED_BOOKMARKS_FOLDER") ∧
      f.add_date = (match attrs.find? (fun p => nameEq p.1 "ADD_DATE") with
        | some p => p.2
        | none => "") ∧
      f.last_modified =
        (match attrs.find? (fun p => nameEq p.1 "LAST_MODIFIED") with
        | some p => p.2
        | none => "") := by
  refine ⟨_, from_node_h3_eq tag attrs cs following h, ?_, ?_, ?_, ?_, ?_⟩
  · rw [Folder.folded, DomNode.select_attribute, ← find?_isSome_any]
    cases attrs.find? (fun p => nameEq p.1 "FOLDED") with
    | none => rfl
    | some p => rfl
  · rw [Folder.personal_toolbar_folder, DomNode.select_attribute,
      ← find?_isSome_any]
    cases attrs.find? (fun p => nameEq p.1 "PERSONAL_TOOLBAR_FOLDER") with
    | none => rfl
    | some p => rfl
  · rw [Folder.unfiled_bookmarks_folder, DomNode.select_attribute,
      ← find?_isSome_any]
    cases attrs.find? (fun p => nameEq p.1 "UNFILED_BOOKMARKS_FOLDER") with
    | none => rfl
    | some p => rfl
  · rw [Folder.add_date, DomNode.select_attribute]
    cases hA : attrs.find? (fun p => nameEq p.1 "ADD_DATE") with
    | none => rfl
    | some p => rfl
  · rw [Folder.last_modified, DomNode.select_attribute]
    cases hL : attrs.find? (fun p => nameEq p.1 "LAST_MODIFIED") with
    | none => rfl
    | some p => rfl

theorem c5_witness :
    (∃ f, Folder.from_node
        (.element "H3" [("FOLDED", ""), ("ADD_DATE", "123")] [.text "t"]) [] =
          some f ∧
      f.folded = true ∧ f.personal_toolbar_folder = false ∧
      f.unfiled_bookmarks_folder = false ∧ f.add_date = "123" ∧
      f.last_modified = "") := by
  obtain ⟨f, h0, h1, h2, h3, h4, h5⟩ :=
    c5_attribute_parsing "H3" [("FOLDED", ""), ("ADD_DATE", "123")] [.text "t"]
      [] (by decide)
  exact ⟨f, h0, h1.trans (by decide), h2.trans (by decide),
    h3.trans (by decide), h4.trans (by decide), h5.trans (by decide)⟩

theorem lastDL_eq_none {sibs : List DomNode}
    (h : ∀ sib ∈ sibs, sib.is_element "DL" = false) : lastDL sibs = none := by
  induction sibs with
  | nil => rfl
  | cons s rest ih =>
    rw [lastDL, ih (fun x hx => h x (List.mem_cons_of_mem s hx)),
      h s (List.mem_cons_self s rest)]
    rfl

/-- C6: a folder-header element with no list-container among its
following siblings yields a folder with an empty children sequence,
while a node that is neither an item wrapper holding a folder-header
child nor a folder-header element yields no folder at all. -/
theorem c6_empty_folder_vs_no_folder :
    (∀ (tag : String) (attrs : List (String × String))
      (cs following : List DomNode), nameEq tag "H3" = true →
      (∀ sib ∈ following, sib.is_element "DL" = false) →
      ∃ f, Folder.from_node (.element tag attrs cs) following = some f ∧
        f.children = []) ∧
    (∀ (node : DomNode) (following : List DomNode),
      (node.is_element "DT" && (findH3 node.children).isSome) = false →
      node.is_element "H3" = false →
      Folder.from_node node following = none) := by
  constructor
  · intro tag attrs cs following h hdl
    refine ⟨_, from_node_h3_eq tag attrs cs following h, ?_⟩
    rw [Folder.children, siblingsChildren_eq, lastDL_eq_none hdl]
    rfl
  · intro node following hwrap hh3
    cases node with
    | text s => exact from_node_text s following
    | element tag attrs cs =>
      have hh3' : nameEq tag "H3" = false := hh3
      by_cases hdt : nameEq tag "DT" = true
      · have hsome : (findH3 (DomNode.element tag attrs cs).children).isSome
            = false := by
          rw [DomNode.is_element] at hwrap
          rw [hdt] at hwrap
          simpa using hwrap
        rw [DomNode.children] at hsome
        cases hf : findH3 cs with
        | some pr => rw [hf] at hsome; cases hsome
        | none => exact from_node_dt_none tag attrs cs following hdt hf
      · exact from_node_other tag attrs cs following
          (Bool.not_eq_true _ ▸ hdt : nameEq tag "DT" = false) hh3'

theorem c6_witness :
    (∃ f, Folder.from_node (.element "H3" [] [.text "t"]) [.text "x"] =
      some f ∧ f.children = []) ∧
    Folder.from_node (.element "P" [] [.text "y"]) [] = none := by
  constructor
  · exact c6_empty_folder_vs_no_folder.1 "H3" [] [.text "t"] [.text "x"]
      (by decide) (by decide)
  · exact c6_empty_folder_vs_no_folder.2 (.element "P" [] [.text "y"]) []
      (by decide) (by decide)

/-- C2 (amended): a folder header takes its children from the LAST
following sibling that is a list container — each list-container sibling
recomputes and overwrites the children — and the children are empty when
no such sibling exists. -/
theorem c2_children_from_last_list_container (tag : String)
    (attrs : List (String × String)) (cs following : List DomNode)
    (h : nameEq tag "H3" = true) :
    ∃ f, Folder.from_node (.element tag attrs cs) following = some f ∧
      f.children =
        match (following.filter (fun s => s.is_element "DL")).getLast? with
        | some dl => collectItems dl.children
        | none => [] := by
  refine ⟨_, from_node_h3_eq tag attrs cs following h, ?_⟩
  rw [Folder.children, siblingsChildren_eq, ← lastDL_eq_filter]
  cases lastDL following with
  | none => rfl
  | some dl => rfl

theorem c2_witness :
    ∃ f, Folder.from_node (.element "H3" [] [.text "t"])
        [.element "DL" [] []] = some f ∧ f.children = [] := by
  obtain ⟨f, h1, h2⟩ := c2_children_from_last_list_container "H3" []
    [.text "t"] [.element "DL" [] []] (by decide)
  exact ⟨f, h1, h2.trans collectItems_nil⟩

def c2anchor : DomNode := .element "A" [("HREF", "http://x")] [.text "a"]

def c2dt : DomNode := .element "DT" [] [c2anchor]

def c2dlFirst : DomNode := .element "DL" [] [c2dt]

def c2dlSecond : DomNode := .element "DL" [] []

def c2h3 : DomNode := .element "H3" [] [.text "t"]

/-- C2 (counterexample): a folder header followed by a non-empty list
container and then an empty one gets the empty children of the SECOND
container, while the first container holds one item — so the first
list-container sibling does not determine the children sequence. -/
theorem c2_counterexample :
    (Folder.from_node c2h3 [c2dlFirst, c2dlSecond]).map Folder.children =
      some [] ∧
    (collectItems c2dlFirst.children).length = 1 := by
  constructor
  · simp +decide only [c2h3, c2dlFirst, c2dlSecond, c2dt, c2anchor,
      from_node_h3_eq, from_node_dt, from_node_other, from_node_text,
      Item.from_node, collectItems, siblingsChildren_eq, lastDL, findH3,
      findAnchor, Bookmark.from_node, DomNode.text_contents, textOfList,
      DomNode.select_attribute, DomNode.is_element, DomNode.children,
      FolderBuilder.build, List.find?, Option.map_none, Option.map_some,
      Option.isSome_none, Option.isSome_some, Option.getD_none,
      Option.getD_some, String.append_empty, if_true, if_false,
      Option.map_some', Folder.children]
  · simp +decide only [c2dlFirst, c2dt, c2anchor,
      from_node_h3_eq, from_node_dt, from_node_other, from_node_text,
      Item.from_node, collectItems, siblingsChildren_eq, lastDL, findH3,
      findAnchor, Bookmark.from_node, DomNode.text_contents, textOfList,
      DomNode.select_attribute, DomNode.is_element, DomNode.children,
      FolderBuilder.build, List.find?, Option.map_none, Option.map_some,
      Option.isSome_none, Option.isSome_some, Option.getD_none,
      Option.getD_some, String.append_empty, if_true, if_false, List.length]

/-- C3 (amended): the Document Builder's children sequence applies the
Item Variant Resolver to EVERY item-wrapper (DT) element that is a
direct child of ANY list container (DL) anywhere in the document, in
document order — item wrappers inside nested list containers are
included, not excluded. -/
theorem c3_children_from_all_list_containers (n : DomNode) :
    ∃ N, Netscape.from_node n = .ok N ∧
      N.children = (((elemPairs n).filter isDLDTpair).map Prod.snd).filterMap
        (fun dt => Item.from_node dt []) := by
  refine ⟨_, rfl, ?_⟩
  rw [elemPairs_select]

def c3anchor : DomNode := .element "A" [("HREF", "http://x")] [.text "a"]

def c3dtInner : DomNode := .element "DT" [] [c3anchor]

def c3dlInner : DomNode := .element "DL" [] [c3dtInner]

def c3h3 : DomNode := .element "H3" [] [.text "outer"]

def c3dtOuter : DomNode := .element "DT" [] [c3h3, c3dlInner]

def c3dlTop : DomNode := .element "DL" [] [c3dtOuter]

def c3doc : DomNode := .element "HTML" [] [c3dlTop]

def c3bm : Bookmark := .mk "http://x" "a" "" "" ""

def c3outer : Folder := .mk "outer" false "" "" false false [.Shortcut c3bm]

theorem c3eval_select : DomNode.select_dl_dt c3doc = [c3dtOuter, c3dtInner] := by
  simp +decide only [c3doc, c3dlTop, c3dtOuter, c3h3, c3dlInner, c3dtInner,
    c3anchor, DomNode.select_dl_dt, collectDLDTList, collectDLDT,
    DomNode.is_element, if_true, if_false]
  all_goals rfl

theorem c3eval_outer :
    Item.from_node c3dtOuter [] = some (.Subfolder c3outer) := by
  simp +decide only [c3dtOuter, c3h3, c3dlInner, c3dtInner, c3anchor, c3bm,
    c3outer, from_node_h3_eq, from_node_dt,
    from_node_other, from_node_text, Item.from_node, collectItems,
    siblingsChildren_eq, lastDL, findH3, findAnchor, Bookmark.from_node,
    DomNode.text_contents, textOfList, DomNode.select_attribute,
    DomNode.is_element, DomNode.children, FolderBuilder.build, List.find?,
    Option.map_none, Option.map_some, Option.isSome_none, Option.isSome_some,
    Option.getD_none, Option.getD_some, String.append_empty, if_true,
    if_false]
  all_goals rfl

theorem c3eval_inner :
    Item.from_node c3dtInner [] = some (.Shortcut c3bm) := by
  simp +decide only [c3dtInner, c3anchor, c3bm, from_node_h3_eq,
    from_node_dt, from_node_other, from_node_text, Item.from_node,
    collectItems, siblingsChildren_eq, lastDL, findH3, findAnchor,
    Bookmark.from_node, DomNode.text_contents, textOfList,
    DomNode.select_attribute, DomNode.is_element, DomNode.children,
    FolderBuilder.build, List.find?, Option.map_none, Option.map_some,
    Option.isSome_none, Option.isSome_some, Option.getD_none,
    Option.getD_some, String.append_empty, if_true, if_false]
  all_goals rfl

theorem c3eval_children :
    (Netscape.from_node c3doc).map Netscape.children =
      .ok ((DomNode.select_dl_dt c3doc).filterMap
        (fun dt => Item.from_node dt [])) := by
  simp only [Netscape.from_node, Except.map]

/-- C3 (counterexample): in a document whose top-level list container
holds one folder whose nested container holds one shortcut, the built
children sequence has TWO entries — the folder and, again at top level,
the shortcut resolved from the item wrapper inside the nested container —
while the direct children of the top-level container alone resolve to a
single item. -/
theorem c3_counterexample :
    (Netscape.from_node c3doc).map Netscape.children =
      .ok [Item.Subfolder c3outer, Item.Shortcut c3bm] ∧
    (c3dlTop.children.filterMap (fun dt => Item.from_node dt [])).length
      = 1 := by
  constructor
  · rw [c3eval_children, c3eval_select,
      List.filterMap_cons_some (by exact c3eval_outer),
      List.filterMap_cons_some (by exact c3eval_inner), List.filterMap_nil]
  · have e1 : c3dlTop.children = [c3dtOuter] := rfl
    rw [e1, List.filterMap_cons_some (by exact c3eval_outer),
      List.filterMap_nil]
    rfl

/-- C9: the Document Builder's title (resp. heading) is the text content
of the first TITLE (resp. H1) descendant in document order, defaults to
the empty string when no such descendant exists, and the document builds
successfully either way. -/
theorem c9_title_heading_extraction (n : DomNode) :
    ∃ N, Netscape.from_node n = .ok N ∧
      (n.descendants.filter (fun d => d.is_element "TITLE") = [] →
        N.title = "") ∧
      (∀ d rest, n.descendants.filter (fun d => d.is_element "TITLE") =
        d :: rest → N.title = d.text_contents) ∧
      (n.descendants.filter (fun d => d.is_element "H1") = [] →
        N.h1 = "") ∧
      (∀ d rest, n.descendants.filter (fun d => d.is_element "H1") =
        d :: rest → N.h1 = d.text_contents) := by
  refine ⟨_, rfl, ?_, ?_, ?_, ?_⟩
  · intro h
    show ((n.select_text "TITLE").getD "") = ""
    rw [DomNode.select_text, find?_eq_filter_head, h]
    rfl
  · intro d rest h
    show ((n.select_text "TITLE").getD "") = d.text_contents
    rw [DomNode.select_text, find?_eq_filter_head, h]
    rfl
  · intro h
    show ((n.select_text "H1").getD "") = ""
    rw [DomNode.select_text, find?_eq_filter_head, h]
    rfl
  · intro d rest h
    show ((n.select_text "H1").getD "") = d.text_contents
    rw [DomNode.select_text, find?_eq_filter_head, h]
    rfl

def c9doc : DomNode := .element "HTML" []
  [.element "TITLE" [] [.text "T"], .element "H1" [] [.text "H"]]

theorem c9_witness :
    ∃ N, Netscape.from_node c9doc = .ok N ∧ N.title = "T" ∧ N.h1 = "H" := by
  obtain ⟨N, h0, _, h2, _, h4⟩ := c9_title_heading_extraction c9doc
  refine ⟨N, h0, ?_, ?_⟩
  · exact (h2 (.element "TITLE" [] [.text "T"])
      [] (by rfl)).trans rfl
  · exact (h4 (.element "H1" [] [.text "H"]) [] (by rfl)).trans rfl

def c1docA : DomNode := .element "HTML" [] [.element "TITLE" [] [.text "a"]]

def c1docB : DomNode := .element "HTML" [] [.element "TITLE" [] [.text "b"]]

def c1NA : Netscape := { title := "a", h1 := "", children := [] }

def c1NB : Netscape := { title := "b", h1 := "", children := [] }

/-- Whether re-parsing the rendered markup of a document (through a given
external HTML parser) reproduces a document equal to it under the
PartialEq of src/netscape.rs. -/
def roundTripOk (parseHtml : String → DomNode) (N : Netscape) : Bool :=
  match Netscape.from_string parseHtml N.to_string with
  | .ok M => netscapeEq M N
  | .error _ => false

theorem c1eval_A : Netscape.from_node c1docA = .ok c1NA := by
  have hsel : DomNode.select_dl_dt c1docA = [] := by
    simp +decide only [c1docA, DomNode.select_dl_dt, collectDLDTList,
      collectDLDT, DomNode.is_element, if_true, if_false]
    all_goals rfl
  simp only [Netscape.from_node, hsel, List.filterMap_nil]
  rfl

theorem c1eval_B : Netscape.from_node c1docB = .ok c1NB := by
  have hsel : DomNode.select_dl_dt c1docB = [] := by
    simp +decide only [c1docB, DomNode.select_dl_dt, collectDLDTList,
      collectDLDT, DomNode.is_element, if_true, if_false]
    all_goals rfl
  simp only [Netscape.from_node, hsel, List.filterMap_nil]
  rfl

theorem roundTripOk_title (p : String → DomNode) (N : Netscape)
    (h : roundTripOk p N = true) :
    (((p N.to_string).select_text "TITLE").getD "") = N.title := by
  rw [roundTripOk] at h
  have h' : netscapeEq
      { title := ((p N.to_string).select_text "TITLE").getD "",
        h1 := ((p N.to_string).select_text "H1").getD "",
        children := (p N.to_string).select_dl_dt.filterMap
          (fun dt => Item.from_node dt []) } N = true := h
  exact netscapeEq_title h'

/-- C1: the renderer for documents (Netscape::to_string) returns the
empty string for every value, so re-parsing a rendered document loses
everything: two distinct documents built by the Document Builder render
to the same text, hence no parser whatsoever can round-trip both back to
trees equal to the originals. -/
theorem c1_render_roundtrip_broken :
    Netscape.from_node c1docA = .ok c1NA ∧
    Netscape.from_node c1docB = .ok c1NB ∧
    Netscape.to_string c1NA = "" ∧ Netscape.to_string c1NB = "" ∧
    ∀ parseHtml : String → DomNode,
      (roundTripOk parseHtml c1NA && roundTripOk parseHtml c1NB) = false := by
  refine ⟨c1eval_A, c1eval_B, rfl, rfl, ?_⟩
  intro p
  cases hrt : roundTripOk p c1NA && roundTripOk p c1NB with
  | false => rfl
  | true =>
    exfalso
    rw [Bool.and_eq_true] at hrt
    have t1 := roundTripOk_title p c1NA hrt.1
    have t2 := roundTripOk_title p c1NB hrt.2
    have e : (((p c1NA.to_string).select_text "TITLE").getD "") =
        (((p c1NB.to_string).select_text "TITLE").getD "") := rfl
    have hab : c1NA.title = c1NB.title := t1.symm.trans (e.trans t2)
    exact absurd hab (by decide)
